import Mathlib

/-!
Shallow embedding of `svelte-fancy-stores` (src/index.ts).

The execution model is the single-threaded, cooperative one assumed by the
library: every promise that an operation awaits has settled by the time the
next step runs, so a settled promise is an `Except String V` (rejected with a
reason, or resolved with a value).  Parent stores are abstracted as cells that
carry their capability flags (own `load` / `reload` properties), a current
snapshot (`get`), and the settled results their `load()` / `reload()` calls
resolve to; invoking `load`/`reload` on a parent updates its snapshot to the
resolved value, as stores of this library do.  The async-writable cell's
mutable internals (`loadedValuesString`, `currentLoadPromise`, the backing
writable's value) are threaded explicitly as a state record, together with a
log of mapping-load and mapping-write invocations used to observe how often
and with which arguments the caller-supplied functions are invoked.
-/

namespace FancyStores

variable {V : Type} [DecidableEq V]

/-- A parent store as seen by the library: capability flags modelling the own
`load`/`reload` properties probed by `hasOwnProperty`, the current snapshot
returned by `get`, and the settled outcomes of invoking `load()` / `reload()`. -/
structure Parent (V : Type) where
  hasLoad : Bool
  hasReload : Bool
  snap : V
  loadVal : Except String V
  reloadVal : Except String V

/-- Invoking `load()` on a parent: it resolves (or rejects) with `loadVal`;
on resolution the parent's visible value becomes the resolved value. -/
def Parent.invokeLoad (p : Parent V) : Except String V × Parent V :=
  match p.loadVal with
  | .ok v => (.ok v, { p with snap := v })
  | .error e => (.error e, p)

/-- Invoking `reload()` on a parent, analogously. -/
def Parent.invokeReload (p : Parent V) : Except String V × Parent V :=
  match p.reloadVal with
  | .ok v => (.ok v, { p with snap := v })
  | .error e => (.error e, p)

/-- Per-store step of `loadAll` (src/index.ts lines 82-88): if the store has an
own `load` property invoke it, else take the synchronous snapshot `get(store)`. -/
def Parent.resolveLoad (p : Parent V) : Except String V × Parent V :=
  if p.hasLoad then p.invokeLoad else (.ok p.snap, p)

/-- Per-store step of `reloadAll` (src/index.ts lines 104-112): prefer an own
`reload`, fall back to an own `load`, fall back to the snapshot. -/
def Parent.resolveReload (p : Parent V) : Except String V × Parent V :=
  if p.hasReload then p.invokeReload
  else if p.hasLoad then p.invokeLoad
  else (.ok p.snap, p)

/-- `Promise.all` over settled promises: resolves to the ordered list of
values, or rejects with the first rejection. -/
def collectResults : List (Except String V) → Except String (List V)
  | [] => .ok []
  | .error e :: _ => .error e
  | .ok v :: rest => (collectResults rest).map (fun vs => v :: vs)

/-- The `deps` argument of `asyncWritable`: either a single bare store or an
explicit array of stores (the `Stores` type of the source). -/
inductive Deps (V : Type) where
  | one : Parent V → Deps V
  | many : List (Parent V) → Deps V

/-- `getStoresArray` (src/index.ts lines 46-48). -/
def Deps.toList : Deps V → List (Parent V)
  | .one p => [p]
  | .many ps => ps

/-- Put resolved parents back in the shape of the original `deps` argument. -/
def Deps.rebuild : Deps V → List (Parent V) → Deps V
  | .one p, l => .one (l.headD p)
  | .many _, l => .many l

/-- Resolve every parent of a dependency argument with the given per-store
step, collecting the results with `Promise.all` semantics and keeping the
parents' updated states. -/
def runAll (resolve : Parent V → Except String V × Parent V) (d : Deps V) :
    Except String (List V) × Deps V :=
  (collectResults ((d.toList.map resolve).map Prod.fst),
   d.rebuild ((d.toList.map resolve).map Prod.snd))

/-- `loadAll` (src/index.ts lines 79-91). -/
def loadAll (d : Deps V) : Except String (List V) × Deps V :=
  runAll Parent.resolveLoad d

/-- `reloadAll` (src/index.ts lines 101-115). -/
def reloadAll (d : Deps V) : Except String (List V) × Deps V :=
  runAll Parent.resolveReload d

/-- `anyReloadable` (src/index.ts lines 59-60). -/
def anyReloadable (d : Deps V) : Bool :=
  d.toList.any (fun p => p.hasReload)

/-- `anyLoadable` (src/index.ts lines 56-57). -/
def anyLoadable (d : Deps V) : Bool :=
  d.toList.any (fun p => p.hasLoad)

/-- The argument passed to the mapping-load function (src/index.ts line 193):
the bare first value when `deps` was a single bare store, the whole value
array otherwise. -/
inductive MapArg (V : Type) where
  | bare : V → MapArg V
  | seq : List V → MapArg V
deriving DecidableEq

/-- The static configuration of one `asyncWritable` cell: the caller-supplied
mapping functions and the `reloadable` flag (src/index.ts lines 138-146).
The mapping-write function may resolve to `none` (JS `undefined`, no
authoritative result) or `some` replacement value. -/
structure Cfg (V : Type) where
  mappingLoadFunction : MapArg V → Except String V
  mappingWriteFunction : Option (V → List V → Except String (Option V))
  reloadable : Bool

/-- The mutable state of one `asyncWritable` cell: the backing writable's
current value, the memoization key `loadedValuesString` (absent before the
first derivation), the settled `currentLoadPromise`, the parents in their
current states, and instrumentation logs recording each invocation of the
mapping-load and mapping-write functions with its argument(s). -/
structure St (V : Type) where
  value : V
  loadedValuesString : Option (List V)
  currentLoadPromise : Except String V
  stores : Deps V
  loadLog : List (MapArg V)
  writeLog : List (V × List V)

/-- The parent snapshots read after awaiting the parent-load promise
(src/index.ts lines 178-180). -/
def storeValuesOf (d : Deps V) : List V :=
  d.toList.map (fun p => p.snap)

/-- `Array.isArray(stores) ? storeValues : storeValues[0]` (line 193). -/
def mappingArgOf : Deps V → MapArg V
  | .one p => .bare p.snap
  | .many ps => .seq (ps.map (fun p => p.snap))

/-- The resolver chosen for a derivation pass: `reloadAll` when reloading,
`loadAll` otherwise (src/index.ts lines 240-243). -/
def resolveDeps : Bool → Deps V → Except String (List V) × Deps V
  | true, d => reloadAll d
  | false, d => loadAll d

/-- The tail of `loadDependenciesThenSet` after the mapping-load function is
reached (src/index.ts lines 191-199): invoke it with the bare-or-array
argument, and on resolution set the backing store and record the new
`currentLoadPromise`; the memoization key was updated just before (only when
not a forced reload, lines 182-189). -/
def runMapping (cfg : Cfg V) (forceReload : Bool) (s : St V) :
    Except String V × St V :=
  match cfg.mappingLoadFunction (mappingArgOf s.stores) with
  | .ok finalValue =>
      (.ok finalValue,
        { s with
          loadedValuesString :=
            if forceReload then s.loadedValuesString
            else some (storeValuesOf s.stores),
          loadLog := s.loadLog ++ [mappingArgOf s.stores],
          value := finalValue,
          currentLoadPromise := .ok finalValue })
  | .error e =>
      (.error e,
        { s with
          loadedValuesString :=
            if forceReload then s.loadedValuesString
            else some (storeValuesOf s.stores),
          loadLog := s.loadLog ++ [mappingArgOf s.stores],
          currentLoadPromise := .error e })

/-- The memoization check and derivation of `loadDependenciesThenSet`, run on
a state whose parents have already been resolved successfully (src/index.ts
lines 182-199): unless forced, an unchanged serialized parent-value sequence
skips recomputation and returns the existing `currentLoadPromise` unchanged. -/
def derivePhase (cfg : Cfg V) (forceReload : Bool) (s : St V) :
    Except String V × St V :=
  if forceReload = false ∧ some (storeValuesOf s.stores) = s.loadedValuesString
  then (s.currentLoadPromise, s)
  else runMapping cfg forceReload s

/-- `loadDependenciesThenSet` (src/index.ts lines 165-200): resolve the
parents; if that rejects, record the rejected promise as the current load
promise and return it, leaving the value untouched; otherwise run the
memoized derivation phase on the snapshots. -/
def loadDependenciesThenSet (cfg : Cfg V) (useReloadAll : Bool)
    (forceReload : Bool) (s : St V) : Except String V × St V :=
  match (resolveDeps useReloadAll s.stores).1 with
  | .error e =>
      (.error e,
        { s with
          stores := (resolveDeps useReloadAll s.stores).2,
          currentLoadPromise := .error e })
  | .ok _ =>
      derivePhase cfg forceReload
        { s with stores := (resolveDeps useReloadAll s.stores).2 }

/-- The exposed `load` (src/index.ts line 240). -/
def load (cfg : Cfg V) (s : St V) : Except String V × St V :=
  loadDependenciesThenSet cfg false false s

/-- The exposed `reload` (src/index.ts line 242): note that `forceReload`
receives the cell's own `reloadable` flag. -/
def reload (cfg : Cfg V) (s : St V) : Except String V × St V :=
  loadDependenciesThenSet cfg true cfg.reloadable s

/-- `promise.then(() => v)` on a settled promise. -/
def promiseThenConst (e : Except String V) (v : V) : Except String V :=
  match e with
  | .ok _ => .ok v
  | .error err => .error err

/-- `promise.catch(() => v)` on a settled promise. -/
def promiseCatchConst (e : Except String V) (v : V) : Except String V :=
  match e with
  | .error _ => .ok v
  | .ok w => .ok w

/-- The tail of `setStoreValueThenWrite` (src/index.ts lines 224-226): when
the cell is `reloadable`, finish with a forced reload pass whose rejection
propagates and whose resolution is discarded. -/
def finishSet (cfg : Cfg V) (s : St V) : Except String Unit × St V :=
  if cfg.reloadable then
    match (loadDependenciesThenSet cfg true cfg.reloadable s).1 with
    | .ok _ => (.ok (), (loadDependenciesThenSet cfg true cfg.reloadable s).2)
    | .error e => (.error e, (loadDependenciesThenSet cfg true cfg.reloadable s).2)
  else (.ok (), s)

/-- The try/catch prologue of `setStoreValueThenWrite` (src/index.ts lines
203-208): await a best-effort derivation pass; on resolution chain the
current load promise to resolve to `value` afterwards, on rejection swallow
the failure and let the current load promise recover to `value`. -/
def setPhase1 (cfg : Cfg V) (value : V) (s : St V) : St V :=
  match (loadDependenciesThenSet cfg false false s).1 with
  | .ok _ =>
      { (loadDependenciesThenSet cfg false false s).2 with
        currentLoadPromise :=
          promiseThenConst
            (loadDependenciesThenSet cfg false false s).2.currentLoadPromise
            value }
  | .error _ =>
      { (loadDependenciesThenSet cfg false false s).2 with
        currentLoadPromise :=
          promiseCatchConst
            (loadDependenciesThenSet cfg false false s).2.currentLoadPromise
            value }

/-- `setStoreValueThenWrite` (src/index.ts lines 202-227): best-effort
derivation pass whose failure is swallowed into the current load promise,
optimistic `thisStore.set(value)`, then the optional mapping-write path
(whose `loadAll` and write-function rejections propagate, and whose defined
result overwrites the value), then the optional final reload pass. -/
def setStoreValueThenWrite (cfg : Cfg V) (value : V) (s : St V) :
    Except String Unit × St V :=
  let s3 := { setPhase1 cfg value s with value := value }
  match cfg.mappingWriteFunction with
  | none => finishSet cfg s3
  | some wf =>
      match (loadAll s3.stores).1 with
      | .error e => (.error e, { s3 with stores := (loadAll s3.stores).2 })
      | .ok parentValues =>
          let s4 := { s3 with
                      stores := (loadAll s3.stores).2,
                      writeLog := s3.writeLog ++ [(value, parentValues)] }
          match wf value parentValues with
          | .error e => (.error e, s4)
          | .ok none => finishSet cfg s4
          | .ok (some writeResponse) =>
              finishSet cfg
                { s4 with
                  value := writeResponse,
                  currentLoadPromise :=
                    promiseThenConst s4.currentLoadPromise writeResponse }

/-- `updateStoreValueThenWrite` (src/index.ts lines 229-232): await a
derivation pass (whose rejection propagates to the caller), apply the
updater to the loaded value and forward the result to `set`. -/
def updateStoreValueThenWrite (cfg : Cfg V) (updater : V → V) (s : St V) :
    Except String Unit × St V :=
  match (loadDependenciesThenSet cfg false false s).1 with
  | .error e => (.error e, (loadDependenciesThenSet cfg false false s).2)
  | .ok currentValue =>
      setStoreValueThenWrite cfg (updater currentValue)
        (loadDependenciesThenSet cfg false false s).2

/-- The capability surface of the object returned by `asyncWritable`
(src/index.ts lines 234-244). -/
structure Capabilities where
  subscribe : Bool
  set : Bool
  update : Bool
  load : Bool
  reload : Bool

/-- Which entry points the object returned by `asyncWritable` carries:
`subscribe`, `set`, `update`, `load` always; `reload` exactly when
`Boolean(reloadable || anyReloadable(stores))` (src/index.ts line 234). -/
def asyncWritableCapabilities (cfg : Cfg V) (d : Deps V) : Capabilities :=
  { subscribe := true
    set := true
    update := true
    load := true
    reload := cfg.reloadable || anyReloadable d }

end FancyStores

namespace JSRuntime

/-- A fragment of the JavaScript value universe sufficient for the
`isLoadable` / `isReloadable` probes: `null`, `undefined`, primitives (which
box to wrapper objects without own `load`/`reload` properties), and objects
carrying a list of own property names and an optional prototype. -/
inductive JSValue where
  | null : JSValue
  | undefined : JSValue
  | primitive : JSValue
  | object : List String → Option JSValue → JSValue

/-- `Object.prototype.hasOwnProperty.call(object, key)` per ECMAScript:
`ToObject` throws a `TypeError` on `null`/`undefined`; otherwise the check
consults only the receiver's own properties, never its prototype chain. -/
def hasOwnPropertyCall (object : JSValue) (key : String) : Except String Bool :=
  match object with
  | .null => .error "TypeError"
  | .undefined => .error "TypeError"
  | .primitive => .ok false
  | .object own _ => .ok (own.contains key)

/-- `isLoadable` (src/index.ts lines 50-51). -/
def isLoadable (object : JSValue) : Except String Bool :=
  hasOwnPropertyCall object "load"

/-- `isReloadable` (src/index.ts lines 53-54). -/
def isReloadable (object : JSValue) : Except String Bool :=
  hasOwnPropertyCall object "reload"

end JSRuntime

namespace FancyStores

variable {V : Type}

/-- Resolving an already-resolved parent again gives the same outcome and
leaves it unchanged: a parent's `load` result is deterministic between two
back-to-back calls, and a successful load already wrote its value into the
snapshot. -/
lemma Parent.resolveLoad_idem (p : Parent V) :
    Parent.resolveLoad (Parent.resolveLoad p).2 = Parent.resolveLoad p := by
  rcases p with ⟨hl, hr, sn, lv, rv⟩
  cases hl <;> cases lv <;> simp [Parent.resolveLoad, Parent.invokeLoad]

/-- `loadAll` on the parents it just resolved settles to the same outcome. -/
lemma loadAll_idem (d : Deps V) : loadAll (loadAll d).2 = loadAll d := by
  cases d with
  | one p =>
      simp [loadAll, runAll, Deps.toList, Deps.rebuild, Parent.resolveLoad_idem]
  | many ps =>
      have h : (((ps.map Parent.resolveLoad).map Prod.snd).map Parent.resolveLoad)
          = ps.map Parent.resolveLoad := by
        rw [List.map_map, List.map_map]
        apply List.map_congr_left
        intro a _
        exact Parent.resolveLoad_idem a
      simp only [loadAll, runAll, Deps.toList, Deps.rebuild, h]

/-- Branch lemma: a derivation pass whose parent resolution rejects records
the rejected promise and returns it. -/
lemma ldts_error_case [DecidableEq V] (cfg : Cfg V) (b f : Bool) (s : St V)
    (e : String) (h : (resolveDeps b s.stores).1 = .error e) :
    loadDependenciesThenSet cfg b f s
      = (.error e,
         { s with stores := (resolveDeps b s.stores).2,
                  currentLoadPromise := .error e }) := by
  simp only [loadDependenciesThenSet, h]

/-- Branch lemma: a derivation pass whose parent resolution succeeds goes on
to the memoized derivation phase on the resolved parents. -/
lemma ldts_ok_case [DecidableEq V] (cfg : Cfg V) (b f : Bool) (s : St V)
    (vs : List V) (h : (resolveDeps b s.stores).1 = .ok vs) :
    loadDependenciesThenSet cfg b f s
      = derivePhase cfg f { s with stores := (resolveDeps b s.stores).2 } := by
  simp only [loadDependenciesThenSet, h]

/-- Branch lemma: the memoization skip. -/
lemma derivePhase_skip [DecidableEq V] (cfg : Cfg V) (f : Bool) (s : St V)
    (h : f = false ∧ some (storeValuesOf s.stores) = s.loadedValuesString) :
    derivePhase cfg f s = (s.currentLoadPromise, s) := by
  simp only [derivePhase, if_pos h]

/-- Branch lemma: no memoization skip, the mapping-load function runs. -/
lemma derivePhase_go [DecidableEq V] (cfg : Cfg V) (f : Bool) (s : St V)
    (h : ¬(f = false ∧ some (storeValuesOf s.stores) = s.loadedValuesString)) :
    derivePhase cfg f s = runMapping cfg f s := by
  simp only [derivePhase, if_neg h]

/-- Branch lemma: the mapping-load function resolves. -/
lemma runMapping_ok [DecidableEq V] (cfg : Cfg V) (f : Bool) (s : St V) (v : V)
    (h : cfg.mappingLoadFunction (mappingArgOf s.stores) = .ok v) :
    runMapping cfg f s
      = (.ok v,
         { s with
           loadedValuesString :=
             if f then s.loadedValuesString else some (storeValuesOf s.stores),
           loadLog := s.loadLog ++ [mappingArgOf s.stores],
           value := v,
           currentLoadPromise := .ok v }) := by
  simp only [runMapping, h]

/-- Branch lemma: the mapping-load function rejects. -/
lemma runMapping_error [DecidableEq V] (cfg : Cfg V) (f : Bool) (s : St V)
    (e : String) (h : cfg.mappingLoadFunction (mappingArgOf s.stores) = .error e) :
    runMapping cfg f s
      = (.error e,
         { s with
           loadedValuesString :=
             if f then s.loadedValuesString else some (storeValuesOf s.stores),
           loadLog := s.loadLog ++ [mappingArgOf s.stores],
           currentLoadPromise := .error e }) := by
  simp only [runMapping, h]

/-- A derivation pass always returns exactly the `currentLoadPromise` it
leaves behind. -/
lemma ldts_fst_eq_clp [DecidableEq V] (cfg : Cfg V) (b f : Bool) (s : St V) :
    (loadDependenciesThenSet cfg b f s).1
      = (loadDependenciesThenSet cfg b f s).2.currentLoadPromise := by
  cases hres : (resolveDeps b s.stores).1 with
  | error e => rw [ldts_error_case cfg b f s e hres]
  | ok vs =>
      rw [ldts_ok_case cfg b f s vs hres]
      by_cases hc : f = false ∧
          some (storeValuesOf { s with stores := (resolveDeps b s.stores).2 }.stores)
            = { s with stores := (resolveDeps b s.stores).2 }.loadedValuesString
      · rw [derivePhase_skip cfg f _ hc]
      · rw [derivePhase_go cfg f _ hc]
        unfold runMapping
        cases cfg.mappingLoadFunction
            (mappingArgOf { s with stores := (resolveDeps b s.stores).2 }.stores) <;> rfl

/-- On a state whose parents are already settled, whose memoization key
matches the snapshots whenever the parents resolve, and whose current load
promise already records the parents' rejection whenever they reject, a plain
`load()` changes nothing and returns the current load promise. -/
lemma load_settled [DecidableEq V] (cfg : Cfg V) (s : St V)
    (hst : (loadAll s.stores).2 = s.stores)
    (hkey : ∀ vs, (loadAll s.stores).1 = .ok vs →
      s.loadedValuesString = some (storeValuesOf s.stores))
    (hclp : ∀ e, (loadAll s.stores).1 = .error e →
      s.currentLoadPromise = .error e) :
    load cfg s = (s.currentLoadPromise, s) := by
  cases hres : (loadAll s.stores).1 with
  | error e =>
      have h1 : (resolveDeps false s.stores).1 = .error e := hres
      rw [load, ldts_error_case cfg false false s e h1]
      have h2 : (resolveDeps false s.stores).2 = s.stores := hst
      rw [h2, ← hclp e hres]
  | ok vs =>
      have h1 : (resolveDeps false s.stores).1 = .ok vs := hres
      rw [load, ldts_ok_case cfg false false s vs h1]
      have h2 : (resolveDeps false s.stores).2 = s.stores := hst
      rw [h2]
      show derivePhase cfg false s = (s.currentLoadPromise, s)
      exact derivePhase_skip cfg false s ⟨rfl, (hkey vs hres).symm⟩

/-- After the prologue of `set(value)`, the current load promise resolves to
the optimistic value regardless of whether the derivation pass resolved. -/
lemma setPhase1_eq [DecidableEq V] (cfg : Cfg V) (v : V) (s : St V) :
    setPhase1 cfg v s
      = { (loadDependenciesThenSet cfg false false s).2 with
          currentLoadPromise := .ok v } := by
  have hclp := ldts_fst_eq_clp cfg false false s
  cases hd : (loadDependenciesThenSet cfg false false s).1 with
  | ok w =>
      rw [hd] at hclp
      simp only [setPhase1, hd, ← hclp, promiseThenConst]
  | error e =>
      rw [hd] at hclp
      simp only [setPhase1, hd, ← hclp, promiseCatchConst]

/-- The state the write path of `set(value)` operates on: the post-derivation
state with the optimistic value written and the load promise chained to it. -/
lemma set_s3_eq [DecidableEq V] (cfg : Cfg V) (v : V) (s : St V) :
    ({ setPhase1 cfg v s with value := v } : St V)
      = { (loadDependenciesThenSet cfg false false s).2 with
          value := v, currentLoadPromise := .ok v } := by
  rw [setPhase1_eq]

/-- Shape of `set(value)` on a cell with no mapping-write function and the
`reloadable` flag unset: it always resolves, and leaves the post-derivation
state with the optimistic value and a load promise resolving to it. -/
lemma set_no_write_eq [DecidableEq V] (cfg : Cfg V) (v : V) (s : St V)
    (h1 : cfg.mappingWriteFunction = none) (h2 : cfg.reloadable = false) :
    setStoreValueThenWrite cfg v s
      = (.ok (),
         { (loadDependenciesThenSet cfg false false s).2 with
           value := v, currentLoadPromise := .ok v }) := by
  simp only [setStoreValueThenWrite, h1, set_s3_eq, finishSet, h2,
    Bool.false_eq_true, if_false]

/-- If the write path's `loadAll` rejects, `set(value)` rejects with that
reason. -/
lemma set_write_parent_error [DecidableEq V] (cfg : Cfg V)
    (wf : V → List V → Except String (Option V)) (v : V) (s : St V) (e : String)
    (hw : cfg.mappingWriteFunction = some wf)
    (hl : (loadAll (loadDependenciesThenSet cfg false false s).2.stores).1
      = .error e) :
    (setStoreValueThenWrite cfg v s).1 = .error e := by
  simp only [setStoreValueThenWrite, hw, setPhase1_eq, hl]

/-- If the mapping-write function rejects, `set(value)` rejects with that
reason. -/
lemma set_write_fn_error [DecidableEq V] (cfg : Cfg V)
    (wf : V → List V → Except String (Option V)) (v : V) (s : St V)
    (pvs : List V) (e : String)
    (hw : cfg.mappingWriteFunction = some wf)
    (hl : (loadAll (loadDependenciesThenSet cfg false false s).2.stores).1
      = .ok pvs)
    (hwf : wf v pvs = .error e) :
    (setStoreValueThenWrite cfg v s).1 = .error e := by
  simp only [setStoreValueThenWrite, hw, setPhase1_eq, hl, hwf]

/-- Shape of `set(value)` on a non-reloadable cell whose mapping-write
function resolves to a defined result: the result is authoritative for the
visible value and the chained load promise, and the write function was
invoked with the optimistic value and the resolved parent values. -/
lemma set_write_defined_eq [DecidableEq V] (cfg : Cfg V)
    (wf : V → List V → Except String (Option V)) (v : V) (s : St V)
    (pvs : List V) (wr : V)
    (hw : cfg.mappingWriteFunction = some wf)
    (h2 : cfg.reloadable = false)
    (hl : (loadAll (loadDependenciesThenSet cfg false false s).2.stores).1
      = .ok pvs)
    (hwf : wf v pvs = .ok (some wr)) :
    setStoreValueThenWrite cfg v s
      = (.ok (),
         { (loadDependenciesThenSet cfg false false s).2 with
           stores := (loadAll (loadDependenciesThenSet cfg false false s).2.stores).2,
           writeLog := (loadDependenciesThenSet cfg false false s).2.writeLog ++ [(v, pvs)],
           value := wr,
           currentLoadPromise := .ok wr }) := by
  simp only [setStoreValueThenWrite, hw, setPhase1_eq, hl, hwf, finishSet, h2,
    Bool.false_eq_true, if_false, promiseThenConst]

/-- `update(fn)` propagates a rejection of its initial derivation pass. -/
lemma update_propagates_error [DecidableEq V] (cfg : Cfg V) (u : V → V)
    (s : St V) (e : String)
    (h : (loadDependenciesThenSet cfg false false s).1 = .error e) :
    (updateStoreValueThenWrite cfg u s).1 = .error e := by
  simp only [updateStoreValueThenWrite, h]

/-- After any `load()`, the resulting state is settled: its parents are
fixpoints of `loadAll` with the same outcome, a successful outcome left the
memoization key at the serialized snapshots, a rejection is recorded in the
current load promise, the returned promise is the recorded one, and at most
one mapping-load invocation was added. -/
lemma load_post [DecidableEq V] (cfg : Cfg V) (s : St V) :
    (loadAll (load cfg s).2.stores).2 = (load cfg s).2.stores ∧
    (loadAll (load cfg s).2.stores).1 = (loadAll s.stores).1 ∧
    (∀ vs, (loadAll s.stores).1 = .ok vs →
      (load cfg s).2.loadedValuesString
        = some (storeValuesOf (load cfg s).2.stores)) ∧
    (∀ e, (loadAll s.stores).1 = .error e →
      (load cfg s).2.currentLoadPromise = .error e) ∧
    (load cfg s).1 = (load cfg s).2.currentLoadPromise ∧
    (load cfg s).2.loadLog.length ≤ s.loadLog.length + 1 := by
  have hsnd : ∀ t : St V, t.stores = (loadAll s.stores).2 →
      (loadAll t.stores).2 = t.stores ∧ (loadAll t.stores).1 = (loadAll s.stores).1 := by
    intro t ht
    rw [ht, loadAll_idem]
    exact ⟨rfl, rfl⟩
  cases hres : (loadAll s.stores).1 with
  | error e =>
      have h1 : (resolveDeps false s.stores).1 = .error e := hres
      rw [load, ldts_error_case cfg false false s e h1]
      refine ⟨(hsnd _ rfl).1, (hsnd _ rfl).2.trans hres, ?_, ?_, rfl, Nat.le_succ _⟩
      · intro vs hvs
        exact Except.noConfusion hvs
      · intro e' he'
        injection he' with hh
        rw [hh]
  | ok vs =>
      have h1 : (resolveDeps false s.stores).1 = .ok vs := hres
      rw [load, ldts_ok_case cfg false false s vs h1]
      set s1 : St V := { s with stores := (resolveDeps false s.stores).2 } with hs1
      by_cases hc : (false : Bool) = false ∧
          some (storeValuesOf s1.stores) = s1.loadedValuesString
      · rw [derivePhase_skip cfg false s1 hc]
        refine ⟨(hsnd s1 rfl).1, (hsnd s1 rfl).2.trans hres, ?_, ?_, rfl, Nat.le_succ _⟩
        · intro vs' _
          exact hc.2.symm
        · intro e he
          exact Except.noConfusion he
      · rw [derivePhase_go cfg false s1 hc]
        cases hm : cfg.mappingLoadFunction (mappingArgOf s1.stores) with
        | ok v =>
            rw [runMapping_ok cfg false s1 v hm]
            refine ⟨(hsnd _ rfl).1, (hsnd _ rfl).2.trans hres, ?_, ?_, rfl, ?_⟩
            · intro vs' _
              rfl
            · intro e he
              exact Except.noConfusion he
            · simp
        | error e =>
            rw [runMapping_error cfg false s1 e hm]
            refine ⟨(hsnd _ rfl).1, (hsnd _ rfl).2.trans hres, ?_, ?_, rfl, ?_⟩
            · intro vs' _
              rfl
            · intro e' he'
              exact Except.noConfusion he'
            · simp

end FancyStores

namespace FancyStores

variable {V : Type}

/-- A derivation pass either leaves the mapping-load invocation log unchanged
or appends exactly one invocation, whose argument is built from the resolved
parents. -/
lemma ldts_log_cases [DecidableEq V] (cfg : Cfg V) (b f : Bool) (s : St V) :
    (loadDependenciesThenSet cfg b f s).2.loadLog = s.loadLog ∨
    (loadDependenciesThenSet cfg b f s).2.loadLog
      = s.loadLog ++ [mappingArgOf (resolveDeps b s.stores).2] := by
  cases hres : (resolveDeps b s.stores).1 with
  | error e =>
      rw [ldts_error_case cfg b f s e hres]
      exact Or.inl rfl
  | ok vs =>
      rw [ldts_ok_case cfg b f s vs hres]
      by_cases hc : f = false ∧
          some (storeValuesOf ({ s with stores := (resolveDeps b s.stores).2 } : St V).stores)
            = ({ s with stores := (resolveDeps b s.stores).2 } : St V).loadedValuesString
      · rw [derivePhase_skip cfg f _ hc]
        exact Or.inl rfl
      · rw [derivePhase_go cfg f _ hc]
        cases hm : cfg.mappingLoadFunction
            (mappingArgOf ({ s with stores := (resolveDeps b s.stores).2 } : St V).stores) with
        | ok w =>
            rw [runMapping_ok cfg f _ w hm]
            exact Or.inr rfl
        | error e =>
            rw [runMapping_error cfg f _ e hm]
            exact Or.inr rfl

/-- C3: if resolving the parents rejects during a `load()` or `reload()`
call, the call's promise rejects with the parent failure, the rejected
parent-resolution promise becomes the cell's current Load Promise, and the
rest of the state — in particular the visible value and the mapping-load
invocation log — is exactly what it was before the call. -/
theorem c3_parent_rejection_propagates (cfg : Cfg V) [DecidableEq V]
    (s : St V) (e : String) :
    ((loadAll s.stores).1 = .error e →
      load cfg s = (.error e,
        { s with stores := (loadAll s.stores).2,
                 currentLoadPromise := .error e })) ∧
    ((reloadAll s.stores).1 = .error e →
      reload cfg s = (.error e,
        { s with stores := (reloadAll s.stores).2,
                 currentLoadPromise := .error e })) := by
  constructor
  · intro h
    exact ldts_error_case cfg false false s e h
  · intro h
    exact ldts_error_case cfg true cfg.reloadable s e h

def c3Parent : Parent Int :=
  { hasLoad := true, hasReload := true, snap := 0,
    loadVal := .error "boom", reloadVal := .error "bust" }

def c3Cfg : Cfg Int :=
  { mappingLoadFunction := fun _ => .ok 1, mappingWriteFunction := none,
    reloadable := false }

def c3St : St Int :=
  { value := 0, loadedValuesString := none, currentLoadPromise := .ok 0,
    stores := .one c3Parent, loadLog := [], writeLog := [] }

/-- Witness for C3 at a concrete failing parent. -/
theorem c3_witness :
    (loadAll c3St.stores).1 = .error "boom" ∧
    load c3Cfg c3St = (.error "boom",
      { c3St with stores := (loadAll c3St.stores).2,
                  currentLoadPromise := .error "boom" }) ∧
    (reloadAll c3St.stores).1 = .error "bust" ∧
    reload c3Cfg c3St = (.error "bust",
      { c3St with stores := (reloadAll c3St.stores).2,
                  currentLoadPromise := .error "bust" }) :=
  ⟨rfl, (c3_parent_rejection_propagates c3Cfg c3St "boom").1 rfl,
   rfl, (c3_parent_rejection_propagates c3Cfg c3St "bust").2 rfl⟩

/-- C4: calling `load()` twice in succession — the parents' resolved values
are unchanged, the model's parents being deterministic between the two calls
— invokes the mapping-load function at most once in total: the second call
returns the existing current Load Promise and leaves the whole state
(including the memoization key and the invocation log) unchanged, and the
two calls together add at most one entry to the mapping-load invocation
log. -/
theorem c4_load_twice_memoized [DecidableEq V] (cfg : Cfg V) (s : St V) :
    load cfg (load cfg s).2
      = ((load cfg s).2.currentLoadPromise, (load cfg s).2) ∧
    (load cfg s).2.loadLog.length ≤ s.loadLog.length + 1 := by
  obtain ⟨h1, h2, h3, h4, _, h6⟩ := load_post cfg s
  refine ⟨?_, h6⟩
  apply load_settled
  · exact h1
  · intro vs hvs
    exact h3 vs (h2.symm.trans hvs)
  · intro e he
    exact h4 e (h2.symm.trans he)

/-- Spec-side description of one cell's resolution in a reload pass, in the
claim's words: invoke its `reload()` if the cell carries a reload capability,
otherwise its `load()` if it carries a load capability, otherwise take its
synchronous snapshot. -/
def reloadResolutionSpec (p : Parent V) : Except String V :=
  if p.hasReload then p.invokeReload.1
  else if p.hasLoad then p.invokeLoad.1
  else .ok p.snap

lemma resolveReload_fst (p : Parent V) :
    (Parent.resolveReload p).1 = reloadResolutionSpec p := by
  rcases p with ⟨hl, hr, sn, lv, rv⟩
  cases hr <;> cases hl <;>
    simp [Parent.resolveReload, reloadResolutionSpec]

/-- C6: `reloadAll` resolves each cell of the dependency sequence, in order,
preferring its `reload`, falling back to its `load`, falling back to its
snapshot, and resolves to the ordered sequence of these per-cell results
(with `Promise.all` rejection semantics). -/
theorem c6_reloadAll_per_cell_preference (d : Deps V) :
    (reloadAll d).1 = collectResults (d.toList.map reloadResolutionSpec) := by
  cases d with
  | one p => simp [reloadAll, runAll, Deps.toList, resolveReload_fst]
  | many ps =>
      simp only [reloadAll, runAll, Deps.toList, List.map_map]
      congr 1
      apply List.map_congr_left
      intro a _
      exact resolveReload_fst a

/-- C7: the object returned by `asyncWritable` always exposes `subscribe`,
`set`, `update` and `load`, and it exposes `reload` exactly when the
`reloadable` flag was passed truthy or some cell of the normalized
dependency sequence carries a reload capability. -/
theorem c7_capability_exposure (cfg : Cfg V) (d : Deps V) :
    (asyncWritableCapabilities cfg d).subscribe = true ∧
    (asyncWritableCapabilities cfg d).set = true ∧
    (asyncWritableCapabilities cfg d).update = true ∧
    (asyncWritableCapabilities cfg d).load = true ∧
    ((asyncWritableCapabilities cfg d).reload = true ↔
      cfg.reloadable = true ∨ ∃ p ∈ d.toList, p.hasReload = true) := by
  refine ⟨rfl, rfl, rfl, rfl, ?_⟩
  simp [asyncWritableCapabilities, anyReloadable, List.any_eq_true]

/-- C8: whenever a derivation pass reaches the mapping-load invocation (the
invocation log grew), the function received the parents' resolved values as
a sequence, in dependency order, when `deps` was given as a sequence, and
the single parent's bare resolved value when `deps` was a single bare
cell. -/
theorem c8_mapping_arg_shape [DecidableEq V] (cfg : Cfg V) (b f : Bool)
    (s : St V)
    (h : (loadDependenciesThenSet cfg b f s).2.loadLog ≠ s.loadLog) :
    (∀ p, (resolveDeps b s.stores).2 = .one p →
      (loadDependenciesThenSet cfg b f s).2.loadLog
        = s.loadLog ++ [.bare p.snap]) ∧
    (∀ ps, (resolveDeps b s.stores).2 = .many ps →
      (loadDependenciesThenSet cfg b f s).2.loadLog
        = s.loadLog ++ [.seq (ps.map (fun p => p.snap))]) := by
  rcases ldts_log_cases cfg b f s with hl | hl
  · exact absurd hl h
  · constructor
    · intro p hp
      rw [hl, hp]
      rfl
    · intro ps hp
      rw [hl, hp]
      rfl

def c8Parent : Parent Int :=
  { hasLoad := true, hasReload := false, snap := 0,
    loadVal := .ok 5, reloadVal := .ok 5 }

def c8Cfg : Cfg Int :=
  { mappingLoadFunction := fun _ => .ok 1, mappingWriteFunction := none,
    reloadable := false }

def c8St : St Int :=
  { value := 0, loadedValuesString := none, currentLoadPromise := .ok 0,
    stores := .one c8Parent, loadLog := [], writeLog := [] }

/-- Witness for C8: a single-bare-cell derivation pass hands the mapping-load
function the bare resolved value. -/
theorem c8_witness :
    (loadDependenciesThenSet c8Cfg false false c8St).2.loadLog ≠ c8St.loadLog ∧
    (loadDependenciesThenSet c8Cfg false false c8St).2.loadLog
      = c8St.loadLog ++ [.bare ({ c8Parent with snap := 5 } : Parent Int).snap] :=
  ⟨by decide,
   (c8_mapping_arg_shape c8Cfg false false c8St (by decide)).1
     { c8Parent with snap := 5 } rfl⟩

end FancyStores

namespace JSRuntime

/-- C10: `isLoadable` and `isReloadable` report exactly whether `load`
(resp. `reload`) is an own property of the argument — a property present
only on the prototype chain is not counted — and both probes throw a
`TypeError` on `null` and on `undefined` instead of returning `false`. -/
theorem c10_own_property_probes (own : List String) (proto : Option JSValue) :
    isLoadable (JSValue.object own proto) = .ok (own.contains "load") ∧
    isReloadable (JSValue.object own proto) = .ok (own.contains "reload") ∧
    isLoadable (JSValue.object [] (some (JSValue.object ["load"] none)))
      = .ok false ∧
    isReloadable (JSValue.object [] (some (JSValue.object ["reload"] none)))
      = .ok false ∧
    isLoadable JSValue.null = .error "TypeError" ∧
    isLoadable JSValue.undefined = .error "TypeError" ∧
    isReloadable JSValue.null = .error "TypeError" ∧
    isReloadable JSValue.undefined = .error "TypeError" :=
  ⟨rfl, rfl, rfl, rfl, rfl, rfl, rfl, rfl⟩

end JSRuntime

namespace FancyStores

variable {V : Type}

def c1Parent : Parent Int :=
  { hasLoad := true, hasReload := true, snap := 5,
    loadVal := .ok 5, reloadVal := .ok 5 }

def c1Cfg : Cfg Int :=
  { mappingLoadFunction := fun _ => .ok 42, mappingWriteFunction := none,
    reloadable := false }

def c1WCfg : Cfg Int :=
  { mappingLoadFunction := fun _ => .ok 42, mappingWriteFunction := none,
    reloadable := true }

def c1St : St Int :=
  { value := 5, loadedValuesString := some [5], currentLoadPromise := .ok 99,
    stores := .one c1Parent, loadLog := [], writeLog := [] }

/-- C1 counterexample: a cell whose reload capability comes only from a
reloadable parent (its own `reloadable` flag is false) does take the
memoization skip on `reload()`: with the serialized parent-value sequence
unchanged, `reload()` returns the existing current Load Promise (the
sentinel `99`, not the mapping result `42`), leaves the state unchanged, and
records no mapping-load invocation. -/
theorem c1_cex :
    (asyncWritableCapabilities c1Cfg c1St.stores).reload = true ∧
    c1Cfg.reloadable = false ∧
    (reloadAll c1St.stores).1 = .ok [5] ∧
    reload c1Cfg c1St = (.ok 99, c1St) ∧
    (reload c1Cfg c1St).2.loadLog = [] :=
  ⟨rfl, rfl, rfl, rfl, rfl⟩

/-- C1 (amended): a `reload()` bypasses memoization only when the cell's own
`reloadable` flag is truthy — `reload` passes that flag as `forceReload` —
in which case, whenever the parents resolve, the mapping-load function is
re-invoked even though the serialized parent-value sequence is unchanged; a
cell whose reload capability comes only from a reloadable parent still takes
the memoization skip. -/
theorem c1_amended_own_flag_forces_recompute [DecidableEq V] (cfg : Cfg V)
    (s : St V) (vs : List V)
    (h1 : cfg.reloadable = true)
    (h2 : (reloadAll s.stores).1 = .ok vs) :
    (reload cfg s).2.loadLog
      = s.loadLog ++ [mappingArgOf (reloadAll s.stores).2] := by
  have h2' : (resolveDeps true s.stores).1 = .ok vs := h2
  show (loadDependenciesThenSet cfg true cfg.reloadable s).2.loadLog = _
  rw [h1, ldts_ok_case cfg true true s vs h2']
  rw [derivePhase_go cfg true _ (fun hco => Bool.noConfusion hco.1)]
  cases hm : cfg.mappingLoadFunction
      (mappingArgOf ({ s with stores := (resolveDeps true s.stores).2 } : St V).stores) with
  | ok w =>
      rw [runMapping_ok cfg true _ w hm]
      rfl
  | error e =>
      rw [runMapping_error cfg true _ e hm]
      rfl

/-- Witness for the amended C1: with the cell's own flag set, `reload()` on
the same unchanged state does re-invoke the mapping-load function. -/
theorem c1_amended_witness :
    c1WCfg.reloadable = true ∧
    (reloadAll c1St.stores).1 = .ok [5] ∧
    (reload c1WCfg c1St).2.loadLog
      = c1St.loadLog ++ [mappingArgOf (reloadAll c1St.stores).2] :=
  ⟨rfl, rfl, c1_amended_own_flag_forces_recompute c1WCfg c1St [5] rfl rfl⟩

end FancyStores

namespace FancyStores

variable {V : Type}

def c2Parent : Parent Int :=
  { hasLoad := true, hasReload := false, snap := 0,
    loadVal := .error "boom", reloadVal := .error "boom" }

def c2OkParent : Parent Int :=
  { hasLoad := true, hasReload := false, snap := 0,
    loadVal := .ok 1, reloadVal := .ok 1 }

def c2NCfg : Cfg Int :=
  { mappingLoadFunction := fun _ => .ok 0, mappingWriteFunction := none,
    reloadable := false }

def c2Wf : Int → List Int → Except String (Option Int) :=
  fun _ _ => .error "wfail"

def c2WCfg : Cfg Int :=
  { mappingLoadFunction := fun _ => .ok 0, mappingWriteFunction := some c2Wf,
    reloadable := false }

def c2NSt : St Int :=
  { value := 0, loadedValuesString := none, currentLoadPromise := .ok 0,
    stores := .one c2Parent, loadLog := [], writeLog := [] }

def c2FSt : St Int :=
  { value := 0, loadedValuesString := none, currentLoadPromise := .ok 0,
    stores := .one c2OkParent, loadLog := [], writeLog := [] }

/-- C2 counterexample: on a cell with no mapping-write function and the
`reloadable` flag unset, an ancestor-load failure arising during `set(7)` —
the parents' resolution rejects with `boom` — is swallowed: the `set` call
resolves successfully and the current Load Promise recovers to the
optimistic value `7` instead of surfacing the failure. -/
theorem c2_cex :
    (loadAll c2NSt.stores).1 = .error "boom" ∧
    (setStoreValueThenWrite c2NCfg 7 c2NSt).1 = .ok () ∧
    (setStoreValueThenWrite c2NCfg 7 c2NSt).2.currentLoadPromise = .ok 7 :=
  ⟨rfl, rfl, rfl⟩

/-- C2 (amended): `load()`, `reload()` and `update(fn)` surface their
failures to the caller (`load`/`reload` return the derivation pass's result
by construction, and `update` propagates a rejection of its initial
derivation pass); `set(value)` surfaces failures of its mapping-write path —
both a rejection of the parent resolution it awaits before the mapping-write
function and a rejection of the mapping-write function itself — but swallows
a failure of its initial best-effort derivation pass: on a cell with no
mapping-write function and the `reloadable` flag unset, `set` always
resolves. -/
theorem c2_amended_failure_surfacing [DecidableEq V] (cfg : Cfg V)
    (u : V → V) (wf : V → List V → Except String (Option V)) (v : V)
    (s : St V) (pvs : List V) (e : String) :
    ((loadDependenciesThenSet cfg false false s).1 = .error e →
      (updateStoreValueThenWrite cfg u s).1 = .error e) ∧
    (cfg.mappingWriteFunction = some wf →
      (loadAll (loadDependenciesThenSet cfg false false s).2.stores).1
        = .error e →
      (setStoreValueThenWrite cfg v s).1 = .error e) ∧
    (cfg.mappingWriteFunction = some wf →
      (loadAll (loadDependenciesThenSet cfg false false s).2.stores).1
        = .ok pvs →
      wf v pvs = .error e →
      (setStoreValueThenWrite cfg v s).1 = .error e) ∧
    (cfg.mappingWriteFunction = none → cfg.reloadable = false →
      (setStoreValueThenWrite cfg v s).1 = .ok ()) :=
  ⟨update_propagates_error cfg u s e,
   fun hw hl => set_write_parent_error cfg wf v s e hw hl,
   fun hw hl hwf => set_write_fn_error cfg wf v s pvs e hw hl hwf,
   fun hn hr => by rw [set_no_write_eq cfg v s hn hr]⟩

/-- Witness for the amended C2, covering each conjunct at concrete cells. -/
theorem c2_amended_witness :
    ((loadDependenciesThenSet c2NCfg false false c2NSt).1 = .error "boom" ∧
      (updateStoreValueThenWrite c2NCfg id c2NSt).1 = .error "boom") ∧
    (c2WCfg.mappingWriteFunction = some c2Wf ∧
      (loadAll (loadDependenciesThenSet c2WCfg false false c2NSt).2.stores).1
        = .error "boom" ∧
      (setStoreValueThenWrite c2WCfg 7 c2NSt).1 = .error "boom") ∧
    (c2WCfg.mappingWriteFunction = some c2Wf ∧
      (loadAll (loadDependenciesThenSet c2WCfg false false c2FSt).2.stores).1
        = .ok [1] ∧
      c2Wf 7 [1] = .error "wfail" ∧
      (setStoreValueThenWrite c2WCfg 7 c2FSt).1 = .error "wfail") ∧
    (c2NCfg.mappingWriteFunction = none ∧ c2NCfg.reloadable = false ∧
      (setStoreValueThenWrite c2NCfg 7 c2NSt).1 = .ok ()) :=
  ⟨⟨rfl, (c2_amended_failure_surfacing c2NCfg id c2Wf 7 c2NSt [] "boom").1 rfl⟩,
   ⟨rfl, rfl,
    (c2_amended_failure_surfacing c2WCfg id c2Wf 7 c2NSt [] "boom").2.1 rfl rfl⟩,
   ⟨rfl, rfl, rfl,
    (c2_amended_failure_surfacing c2WCfg id c2Wf 7 c2FSt [1] "wfail").2.2.1
      rfl rfl rfl⟩,
   ⟨rfl, rfl,
    (c2_amended_failure_surfacing c2NCfg id c2Wf 7 c2NSt [] "x").2.2.2
      rfl rfl⟩⟩

def c5Wf : Int → List Int → Except String (Option Int) :=
  fun v _ => .ok (some (v * 2))

def c5Cfg : Cfg Int :=
  { mappingLoadFunction := fun _ => .ok 0, mappingWriteFunction := some c5Wf,
    reloadable := false }

def c5CfgR : Cfg Int :=
  { mappingLoadFunction := fun _ => .ok 0, mappingWriteFunction := some c5Wf,
    reloadable := true }

def c5St : St Int :=
  { value := 0, loadedValuesString := none, currentLoadPromise := .ok 0,
    stores := .many [], loadLog := [], writeLog := [] }

/-- C5 counterexample: on a `reloadable` cell with a mapping-write function,
`await set(3)` does invoke the mapping-write function (with `(3, [])`) and
it resolves to the defined result `6` — yet the visible value afterwards is
`0`, not `6`, because the final forced reload pass re-runs the mapping-load
function and its result overwrites the write response. -/
theorem c5_cex :
    c5CfgR.mappingWriteFunction = some c5Wf ∧
    c5Wf 3 [] = .ok (some 6) ∧
    (setStoreValueThenWrite c5CfgR 3 c5St).2.writeLog = [(3, [])] ∧
    (setStoreValueThenWrite c5CfgR 3 c5St).2.value = 0 ∧
    (6 : Int) ≠ 0 :=
  ⟨rfl, rfl, rfl, rfl, by decide⟩

/-- C5 (amended): on a cell constructed with a mapping-write function and
the `reloadable` flag unset, awaiting `set(value)` invokes the mapping-write
function with the value and the resolved parent values, and if it resolves
to a defined result, that result — rather than the optimistically set
value — is the visible value afterwards and the current Load Promise
resolves to it; a `reloadable` cell instead finishes with a forced reload
pass whose derivation result becomes the visible value. -/
theorem c5_amended_write_through [DecidableEq V] (cfg : Cfg V)
    (wf : V → List V → Except String (Option V)) (v : V) (s : St V)
    (pvs : List V) (wr : V)
    (hw : cfg.mappingWriteFunction = some wf)
    (h2 : cfg.reloadable = false)
    (hl : (loadAll (loadDependenciesThenSet cfg false false s).2.stores).1
      = .ok pvs)
    (hwf : wf v pvs = .ok (some wr)) :
    (setStoreValueThenWrite cfg v s).1 = .ok () ∧
    (setStoreValueThenWrite cfg v s).2.value = wr ∧
    (setStoreValueThenWrite cfg v s).2.currentLoadPromise = .ok wr ∧
    (setStoreValueThenWrite cfg v s).2.writeLog
      = (loadDependenciesThenSet cfg false false s).2.writeLog ++ [(v, pvs)] := by
  rw [set_write_defined_eq cfg wf v s pvs wr hw h2 hl hwf]
  exact ⟨rfl, rfl, rfl, rfl⟩

/-- Witness for the amended C5: the spec's concrete example — after
`await w.set(3)` on `w = asyncWritable([], async () => 0, async (v) => v * 2)`,
the snapshot equals `6`. -/
theorem c5_amended_witness :
    c5Cfg.mappingWriteFunction = some c5Wf ∧
    c5Cfg.reloadable = false ∧
    (loadAll (loadDependenciesThenSet c5Cfg false false c5St).2.stores).1
      = .ok [] ∧
    c5Wf 3 [] = .ok (some 6) ∧
    (setStoreValueThenWrite c5Cfg 3 c5St).2.value = 6 :=
  ⟨rfl, rfl, rfl, rfl,
   (c5_amended_write_through c5Cfg c5Wf 3 c5St [] 6 rfl rfl rfl rfl).2.1⟩

/-- C9: on a cell with no mapping-write function and the `reloadable` flag
unset, after `set(v)` succeeds (its initial derivation pass having resolved),
a subsequent `load()` — the parents' resolved values being unchanged —
resolves to `v` without re-invoking the mapping-load function: the write
neither invalidated the Memoization Key nor detached the current Load
Promise, which `set` chained to resolve to `v`, so the second call returns
that promise and leaves the state entirely unchanged. -/
theorem c9_set_then_load_memoized [DecidableEq V] (cfg : Cfg V) (v : V)
    (s : St V) (vs : List V)
    (h1 : cfg.mappingWriteFunction = none)
    (h2 : cfg.reloadable = false)
    (h3 : (loadAll s.stores).1 = .ok vs) :
    (setStoreValueThenWrite cfg v s).1 = .ok () ∧
    (setStoreValueThenWrite cfg v s).2.currentLoadPromise = .ok v ∧
    load cfg (setStoreValueThenWrite cfg v s).2
      = (.ok v, (setStoreValueThenWrite cfg v s).2) := by
  obtain ⟨p1, p2, p3, p4, p5, p6⟩ := load_post cfg s
  rw [set_no_write_eq cfg v s h1 h2]
  refine ⟨rfl, rfl, ?_⟩
  apply load_settled
  · exact p1
  · intro vs' hvs'
    exact p3 vs h3
  · intro e he
    exact Except.noConfusion (h3.symm.trans (p2.symm.trans he))

def c9Parent : Parent Int :=
  { hasLoad := true, hasReload := false, snap := 1,
    loadVal := .ok 1, reloadVal := .ok 1 }

def c9Cfg : Cfg Int :=
  { mappingLoadFunction := fun _ => .ok 10, mappingWriteFunction := none,
    reloadable := false }

def c9St : St Int :=
  { value := 0, loadedValuesString := none, currentLoadPromise := .ok 0,
    stores := .one c9Parent, loadLog := [], writeLog := [] }

/-- Witness for C9 at a concrete cell: after `set(5)`, `load()` resolves to
`5` and changes nothing. -/
theorem c9_witness :
    c9Cfg.mappingWriteFunction = none ∧
    c9Cfg.reloadable = false ∧
    (loadAll c9St.stores).1 = .ok [1] ∧
    ((setStoreValueThenWrite c9Cfg 5 c9St).1 = .ok () ∧
     (setStoreValueThenWrite c9Cfg 5 c9St).2.currentLoadPromise = .ok 5 ∧
     load c9Cfg (setStoreValueThenWrite c9Cfg 5 c9St).2
       = (.ok 5, (setStoreValueThenWrite c9Cfg 5 c9St).2)) :=
  ⟨rfl, rfl, rfl, c9_set_then_load_memoized c9Cfg 5 c9St [1] rfl rfl rfl⟩

end FancyStores
